import Mathlib

/-!
Verification of the benchi test-run orchestration engine (runner.go) and its
metrics collector framework (prometheus generic collector, kafka specializing
collector) against the natural-language specification.

The Go source is shallowly embedded: pure control flow becomes Lean functions,
stateful methods become explicit state passing, `error` values become `Option`,
and observable effects (which lifecycle step ran, which cleanup action fired)
are recorded in explicit traces.
-/

namespace Benchi

/-- Go `errors.Join(errs...)`: drops `nil` entries, returns `nil` when all
entries are `nil`, otherwise an error wrapping exactly the non-nil entries in
order.  Modelled as `Option (List ε)`: `none` for a nil result, `some l` for a
joined error wrapping the list `l` of non-nil errors. -/
def errorsJoin {ε : Type} (es : List (Option ε)) : Option (List ε) :=
  let fails := es.filterMap id
  if fails.isEmpty then none else some fails

/-- A registered cleanup action (`func(context.Context) error` in Go), embedded
as a state transformer so that its execution is observable: it transforms a
state (used below to record an execution trace) and returns an optional
error. -/
def CleanupAction (σ ε : Type) : Type := σ → σ × Option ε

/-- Runs a list of cleanup actions front to back, threading the state and
collecting each action's returned error (including `nil` results, exactly as
the Go loop `errs = append(errs, fn(ctx))` does). -/
def runCleanupFns {σ ε : Type} : List (CleanupAction σ ε) → σ → σ × List (Option ε)
  | [], s => (s, [])
  | fn :: rest, s =>
    let r := fn s
    let rec' := runCleanupFns rest r.1
    (rec'.1, r.2 :: rec'.2)

/-- `testRun.cleanup` (runner.go): iterates the registered cleanup functions in
reverse registration order (`slices.Backward(r.cleanupFns)`), appends every
result to `errs`, and returns `errors.Join(errs...)`. -/
def cleanup {σ ε : Type} (cleanupFns : List (CleanupAction σ ε)) (s : σ) :
    σ × Option (List ε) :=
  let r := runCleanupFns cleanupFns.reverse s
  (r.1, errorsJoin r.2)

/-- An instrumented cleanup action with identity `i`: records `i` in the trace
when executed and returns the predetermined result `res i`. -/
def tracedAction {ε : Type} (res : ℕ → Option ε) (i : ℕ) :
    CleanupAction (List ℕ) ε :=
  fun tr => (tr ++ [i], res i)

theorem runCleanupFns_traced {ε : Type} (res : ℕ → Option ε) (l : List ℕ)
    (tr : List ℕ) :
    runCleanupFns (l.map (tracedAction res)) tr = (tr ++ l, l.map res) := by
  induction l generalizing tr with
  | nil => simp [runCleanupFns]
  | cons i rest ih =>
    simp [runCleanupFns, tracedAction, ih]

end Benchi

/-- C1: for every sequence of `N` registered cleanup actions, `cleanup`
executes all `N` of them in strict reverse-registration order
(`N-1, N-2, …, 0`), continuing past individual failures, and returns an
aggregate error wrapping exactly the failures that occurred, in execution
order — and no error when none failed. -/
theorem Benchi.cleanup_reverse_complete {ε : Type} (N : ℕ) (res : ℕ → Option ε) :
    (Benchi.cleanup ((List.range N).map (Benchi.tracedAction res)) []).1 =
      (List.range N).reverse ∧
    (Benchi.cleanup ((List.range N).map (Benchi.tracedAction res)) []).1.length = N ∧
    (Benchi.cleanup ((List.range N).map (Benchi.tracedAction res)) []).2 =
      (if ((List.range N).reverse.filterMap res).isEmpty then none
       else some ((List.range N).reverse.filterMap res)) := by
  have hmap : ((List.range N).map (Benchi.tracedAction res)).reverse
      = ((List.range N).reverse).map (Benchi.tracedAction res) := by
    rw [List.map_reverse]
  have hrun := Benchi.runCleanupFns_traced res (List.range N).reverse []
  have hfm : List.filterMap id (List.map res (List.range N).reverse)
      = List.filterMap res (List.range N).reverse := by
    rw [List.filterMap_map]
    rfl
  have key : Benchi.cleanup ((List.range N).map (Benchi.tracedAction res)) []
      = ((List.range N).reverse,
         if ((List.range N).reverse.filterMap res).isEmpty then none
         else some ((List.range N).reverse.filterMap res)) := by
    simp only [Benchi.cleanup, hmap, hrun, Benchi.errorsJoin, List.nil_append, hfm]
  refine ⟨?_, ?_, ?_⟩
  · rw [key]
  · rw [key]
    simp
  · rw [key]

namespace Benchi

/-- Observable phases of `testRun.Run` (runner.go): the output-folder existence
check (`os.Stat`), the folder creation (`os.MkdirAll`), the execution of the
`i`-th forward lifecycle step, and the three steps of the deferred cleanup
triple. -/
inductive Phase where
  | statCheck
  | mkdirPhase
  | step (i : ℕ)
  | preCleanupPhase
  | cleanupPhase
  | postCleanupPhase
deriving DecidableEq, Repr

/-- Errors `testRun.Run` can return: the output folder already exists, the
folder could not be created, a forward lifecycle step failed (carrying which
step and its error), or the forward walk succeeded and the deferred cleanup
triple produced a joined error. -/
inductive RunError (ε : Type) where
  | alreadyExists
  | mkdirFailed
  | stepFailed (i : ℕ) (e : ε)
  | cleanupFailed (es : List ε)
deriving DecidableEq

/-- A forward lifecycle step: reads and extends the list of registered cleanup
actions (each action represented by the error it will later return) and may
fail.  This embeds the Go step methods, whose only run-state mutation is
appending to `r.cleanupFns` (runner.go lines 415, 431). -/
def StepFn (ε : Type) : Type := List (Option ε) → List (Option ε) × Option ε

/-- The forward walk of `testRun.Run` (runner.go lines 194-199): runs each step
in order, stopping at the first failure.  Returns the trace of executed steps,
the final registered-cleanup list, and the first failure (with its index), if
any. -/
def goForward {ε : Type} :
    List (StepFn ε) → List (Option ε) → ℕ →
      List Phase × List (Option ε) × Option (ℕ × ε)
  | [], reg, _ => ([], reg, none)
  | f :: rest, reg, i =>
    let r := f reg
    match r.2 with
    | some e => ([Phase.step i], r.1, some (i, e))
    | none =>
      let t := goForward rest r.1 (i + 1)
      (Phase.step i :: t.1, t.2.1, t.2.2)

/-- `testRun.Run` (runner.go lines 144-203): fails fast if the output folder
exists (before the deferred cleanup is installed), creates the folder, then
installs the deferred cleanup triple and runs the forward steps.  The deferred
block runs `preCleanup` (always nil), `cleanup` (executes registered actions in
reverse registration order and joins their errors), and `postCleanup` (always
nil); if the forward walk failed its error is returned and cleanup errors are
only logged, otherwise the joined cleanup error (if any) becomes the result.
Returns (trace of phases, registered cleanup actions, returned error). -/
def runRun {ε : Type} (outPathExists mkdirOk : Bool) (steps : List (StepFn ε)) :
    List Phase × List (Option ε) × Option (RunError ε) :=
  if outPathExists then
    ([Phase.statCheck], [], some RunError.alreadyExists)
  else if !mkdirOk then
    ([Phase.statCheck, Phase.mkdirPhase], [], some RunError.mkdirFailed)
  else
    let fwd := goForward steps [] 0
    let trace := Phase.statCheck :: Phase.mkdirPhase ::
      (fwd.1 ++ [Phase.preCleanupPhase, Phase.cleanupPhase, Phase.postCleanupPhase])
    let cleanupErr := errorsJoin fwd.2.1.reverse
    let result : Option (RunError ε) :=
      match fwd.2.2 with
      | some ie => some (RunError.stepFailed ie.1 ie.2)
      | none => cleanupErr.map RunError.cleanupFailed
    (trace, fwd.2.1, result)

theorem goForward_trace_steps {ε : Type} (steps : List (StepFn ε))
    (reg : List (Option ε)) (i : ℕ) :
    ∀ p ∈ (goForward steps reg i).1, ∃ j, p = Phase.step j := by
  induction steps generalizing reg i with
  | nil => simp [goForward]
  | cons f rest ih =>
    intro p hp
    simp only [goForward] at hp
    rcases h : (f reg).2 with _ | e
    · rw [h] at hp
      simp at hp
      rcases hp with hp | hp
      · exact ⟨i, hp⟩
      · exact ih _ _ p hp
    · rw [h] at hp
      simp at hp
      exact ⟨i, hp⟩

end Benchi

/-- C2 counterexample: when the output folder already exists, `Run` returns the
"already exists" error without executing the cleanup triple at all — the
deferred cleanup is installed only after the existence check — so the triple
does not execute on *every* exit path of `Run`. -/
theorem Benchi.run_triple_counterexample :
    Benchi.runRun (ε := ℕ) true true []
      = ([Benchi.Phase.statCheck], [], some Benchi.RunError.alreadyExists) ∧
    (Benchi.runRun (ε := ℕ) true true []).1.count Benchi.Phase.cleanupPhase = 0 := by
  constructor
  · simp [Benchi.runRun]
  · simp [Benchi.runRun]

/-- C2 amended: on every exit path of `Run` reached after the output folder was
successfully created, the pre-cleanup/cleanup/post-cleanup triple executes
exactly once, at the end of the trace; if the forward walk failed, `Run`
returns that original step error (cleanup errors are only logged), and if the
forward walk succeeded, the joined cleanup errors (if any) become `Run`'s
returned error. -/
theorem Benchi.run_cleanup_triple_amended {ε : Type} (steps : List (Benchi.StepFn ε)) :
    (∃ t, (Benchi.runRun false true steps).1
        = Benchi.Phase.statCheck :: Benchi.Phase.mkdirPhase ::
            (t ++ [Benchi.Phase.preCleanupPhase, Benchi.Phase.cleanupPhase,
                   Benchi.Phase.postCleanupPhase]) ∧
        ∀ p ∈ t, ∃ j, p = Benchi.Phase.step j) ∧
    (Benchi.runRun false true steps).2.2
      = (match (Benchi.goForward steps [] 0).2.2 with
         | some ie => some (Benchi.RunError.stepFailed ie.1 ie.2)
         | none => (Benchi.errorsJoin
             (Benchi.goForward steps [] 0).2.1.reverse).map Benchi.RunError.cleanupFailed) := by
  constructor
  · exact ⟨(Benchi.goForward steps [] 0).1, by simp [Benchi.runRun],
      Benchi.goForward_trace_steps steps [] 0⟩
  · simp [Benchi.runRun]

/-- C2 witness: concrete instance of the amended theorem, for a run with a
single failing forward step. -/
theorem Benchi.run_cleanup_triple_amended_witness :
    (∃ t, (Benchi.runRun false true [fun reg => (reg, some (7 : ℕ))]).1
        = Benchi.Phase.statCheck :: Benchi.Phase.mkdirPhase ::
            (t ++ [Benchi.Phase.preCleanupPhase, Benchi.Phase.cleanupPhase,
                   Benchi.Phase.postCleanupPhase]) ∧
        ∀ p ∈ t, ∃ j, p = Benchi.Phase.step j) ∧
    (Benchi.runRun false true [fun reg => (reg, some (7 : ℕ))]).2.2
      = (match (Benchi.goForward [fun reg => (reg, some (7 : ℕ))] ([] : List (Option ℕ)) 0).2.2 with
         | some ie => some (Benchi.RunError.stepFailed ie.1 ie.2)
         | none => (Benchi.errorsJoin
             (Benchi.goForward [fun reg => (reg, some (7 : ℕ))] ([] : List (Option ℕ)) 0).2.1.reverse).map
               Benchi.RunError.cleanupFailed) :=
  Benchi.run_cleanup_triple_amended [fun reg => (reg, some (7 : ℕ))]

/-- C3: if the output directory already exists when `Run` starts, `Run` fails
with the "already exists" error, executes no lifecycle step (hence performs no
container operation) and registers no cleanup action; otherwise the directory
is created (the `mkdir` phase) before any lifecycle step — hence before any
resource is acquired. -/
theorem Benchi.run_output_guard {ε : Type} (mk : Bool) (steps : List (Benchi.StepFn ε)) :
    Benchi.runRun true mk steps
      = ([Benchi.Phase.statCheck], [], some Benchi.RunError.alreadyExists) ∧
    (∀ i, Benchi.Phase.step i ∉ (Benchi.runRun true mk steps).1) ∧
    (Benchi.runRun true mk steps).2.1 = [] ∧
    (∃ rest, (Benchi.runRun false true steps).1
        = Benchi.Phase.statCheck :: Benchi.Phase.mkdirPhase :: rest) := by
  refine ⟨by simp [Benchi.runRun], ?_, by simp [Benchi.runRun], ?_⟩
  · intro i
    simp [Benchi.runRun]
  · exact ⟨(Benchi.goForward steps [] 0).1 ++ [Benchi.Phase.preCleanupPhase,
      Benchi.Phase.cleanupPhase, Benchi.Phase.postCleanupPhase], by simp [Benchi.runRun]⟩


namespace Benchi

/-- The container state returned by `ContainerInspect` (runner.go line 481):
`dead` and `running` flags, and `health` is `some status` when the container
has a health check reporting `status`, `none` when it has no health check
(`resp.State.Health == nil`). -/
structure ContainerState where
  dead : Bool
  running : Bool
  health : Option String
deriving DecidableEq, Repr

/-- Go `strings.EqualFold` restricted to the ASCII strings compared here:
case-insensitive equality, character by character. -/
def goEqualFold (a b : String) : Bool :=
  a.data.map Char.toLower = b.data.map Char.toLower

/-- Outcome of one iteration of the per-container readiness poll loop. -/
inductive InspectOutcome where
  | failDead (name : String)
  | readyHealthy
  | readyRunning
  | waitRetry
  | nilDeref
deriving DecidableEq, Repr

/-- One iteration of the per-container readiness poll (runner.go lines
480-503), after a successful `ContainerInspect`: the `switch` returns a
"container is dead" error if `resp.State.Dead`, success if the health check
reports healthy, success if there is no health check but the container is
running; otherwise the loop falls through to the log call
`logger.Info(..., "status", resp.State.Health.Status)` — which dereferences
`resp.State.Health` — and then waits one time-unit and re-checks.  When
`resp.State.Health` is nil at that fall-through, the dereference is a nil
pointer panic, embedded as `nilDeref`. -/
def inspectIteration (name : String) (st : ContainerState) : InspectOutcome :=
  if st.dead then InspectOutcome.failDead name
  else if (match st.health with
           | some s => goEqualFold s "healthy"
           | none => false) then InspectOutcome.readyHealthy
  else if st.health.isNone && st.running then InspectOutcome.readyRunning
  else
    match st.health with
    | some _ => InspectOutcome.waitRetry
    | none => InspectOutcome.nilDeref

end Benchi

/-- C4: the claim says a container with no health check that is neither dead
nor running makes the poll wait and re-check "without crashing"; the code
instead dereferences the nil `resp.State.Health` in the fall-through log call
and panics.  This theorem evaluates the embedded iteration at that failing
input (container not dead, not running, no health check) and at the three
terminal inputs, exhibiting the crash. -/
theorem Benchi.inspect_nil_deref :
    Benchi.inspectIteration "c" ⟨false, false, none⟩ = Benchi.InspectOutcome.nilDeref ∧
    Benchi.inspectIteration "c" ⟨true, false, none⟩ = Benchi.InspectOutcome.failDead "c" ∧
    Benchi.inspectIteration "c" ⟨false, false, some "healthy"⟩
      = Benchi.InspectOutcome.readyHealthy ∧
    Benchi.inspectIteration "c" ⟨false, true, none⟩ = Benchi.InspectOutcome.readyRunning ∧
    Benchi.inspectIteration "c" ⟨false, false, some "starting"⟩
      = Benchi.InspectOutcome.waitRetry := by
  refine ⟨rfl, rfl, ?_, rfl, ?_⟩ <;> decide

namespace Benchi

/-- The resolution of one per-container readiness poll: the number of
time-units it takes until the poll goroutine returns, and the error it
returns, if any (e.g. "container X is dead"). -/
structure PollOutcome (ε : Type) where
  time : ℕ
  err : Option ε
deriving DecidableEq, Repr

/-- The per-container wait pool of `dockerComposeUpWait` (runner.go lines
477-507): `wg := pool.New().WithErrors()` runs one goroutine per container and
`wg.Wait()` returns only after *every* goroutine has returned, combining all
returned errors (modelled with `errorsJoin`).  The step therefore completes at
the maximum of the individual poll resolution times. -/
def waitAllPolls {ε : Type} (ps : List (PollOutcome ε)) : ℕ × Option (List ε) :=
  (ps.foldr (fun p m => max p.time m) 0, errorsJoin (ps.map (·.err)))

end Benchi

/-- C5 counterexample: two containers are polled; the first reports dead after
1 time-unit, the second resolves successfully only after 5 time-units.  The
step completes at time 5 — it waits for the second container's poll to finish
— not at time 1 as the claim ("without waiting for the other containers'
polls") requires; the failure does identify the dead container. -/
theorem Benchi.deadContainer_waits_for_stragglers :
    Benchi.waitAllPolls [⟨1, some "container /c1 is dead"⟩, ⟨5, (none : Option String)⟩]
      = (5, some ["container /c1 is dead"]) ∧ (5 : ℕ) ≠ 1 := by
  constructor
  · rfl
  · decide

/-- C5 amended: if any polled container reports a dead state during
compose-up-and-wait, the step fails with an error identifying that container,
but only after all containers' readiness polls have finished: the pool's wait
returns at the maximum poll resolution time, bounded below by every poll's
time, and the combined failure contains every poll error, including the dead
container's. -/
theorem Benchi.waitAllPolls_waits_and_reports {ε : Type} (ps : List (Benchi.PollOutcome ε))
    (p : Benchi.PollOutcome ε) (hp : p ∈ ps) :
    p.time ≤ (Benchi.waitAllPolls ps).1 ∧
    (∀ e, p.err = some e → ∃ l, (Benchi.waitAllPolls ps).2 = some l ∧ e ∈ l) := by
  constructor
  · simp only [Benchi.waitAllPolls]
    induction ps with
    | nil => cases hp
    | cons q rest ih =>
      rcases List.mem_cons.mp hp with h | h
      · subst h
        exact le_max_left _ _
      · exact le_trans (ih h) (le_max_right _ _)
  · intro e he
    have hmem : some e ∈ ps.map (·.err) := by
      exact List.mem_map.mpr ⟨p, hp, he⟩
    have hmem' : e ∈ (ps.map (·.err)).filterMap id :=
      List.mem_filterMap.mpr ⟨some e, hmem, rfl⟩
    refine ⟨(ps.map (·.err)).filterMap id, ?_, hmem'⟩
    have hne : ((ps.map (·.err)).filterMap id).isEmpty = false := by
      cases hcase : (ps.map (·.err)).filterMap id with
      | nil => rw [hcase] at hmem'; cases hmem'
      | cons a l => rfl
    show Benchi.errorsJoin (ps.map (·.err)) = some ((ps.map (·.err)).filterMap id)
    simp only [Benchi.errorsJoin, hne]
    rfl

/-- C5 witness: concrete instance of the amended theorem at a two-container
scenario with one dead container. -/
theorem Benchi.waitAllPolls_waits_and_reports_witness :
    (Benchi.PollOutcome.mk 1 (some "container /c1 is dead")).time
        ≤ (Benchi.waitAllPolls
            [⟨1, some "container /c1 is dead"⟩, ⟨5, (none : Option String)⟩]).1 ∧
    (∀ e, (Benchi.PollOutcome.mk 1 (some "container /c1 is dead")).err = some e →
      ∃ l, (Benchi.waitAllPolls
          [⟨1, some "container /c1 is dead"⟩, ⟨5, (none : Option String)⟩]).2 = some l ∧
        e ∈ l) :=
  Benchi.waitAllPolls_waits_and_reports
    [⟨1, some "container /c1 is dead"⟩, ⟨5, (none : Option String)⟩]
    ⟨1, some "container /c1 is dead"⟩ (by simp)

namespace Benchi

/-- The container-discovery loop of `dockerComposeUpWait` (runner.go lines
445-470): up to 30 attempts; each attempt waits one time-unit, then runs
`docker compose ps` (modelled by `ps`, giving the container identifiers listed
at attempt `i`) and stops as soon as the list is non-empty.  `discoverAux`
returns the number of attempts performed (each costing one time-unit of
waiting) and the final container list. -/
def discoverAux (ps : ℕ → List String) : ℕ → ℕ → ℕ × List String
  | 0, _ => (0, [])
  | fuel + 1, i =>
    let cs := ps i
    if cs.isEmpty then
      let r := discoverAux ps fuel (i + 1)
      (r.1 + 1, r.2)
    else (1, cs)

/-- The discovery loop with its fixed bound of 30 attempts. -/
def discover (ps : ℕ → List String) : ℕ × List String :=
  discoverAux ps 30 0

/-- What `dockerComposeUpWait` does right after discovery (runner.go lines
472-475): fail with the "failed to start containers" error, or proceed to the
per-container health waiting. -/
inductive UpWaitStage where
  | failedToStart
  | healthWait (containers : List String)
deriving DecidableEq, Repr

/-- The discovery phase of `dockerComposeUpWait` together with the dead-flag
check: the loop itself never consults `r.goroutinePoolDead`; the flag
(set at time `deadAt` by the failing background compose-up task) is read once,
after the loop ends, at elapsed time equal to the number of polls performed.
Returns (number of polls performed, next stage). -/
def composeUpWaitDiscovery (deadAt : Option ℕ) (ps : ℕ → List String) :
    ℕ × UpWaitStage :=
  let d := discover ps
  let isDead := match deadAt with
    | some t => decide (t ≤ d.1)
    | none => false
  if isDead then (d.1, UpWaitStage.failedToStart)
  else (d.1, UpWaitStage.healthWait d.2)

end Benchi

/-- C6 counterexample: the background compose-up task fails at time 0 (the pool
is marked dead before the first discovery poll) and no container ever appears;
the discovery loop nevertheless performs all 30 polling attempts — waiting 30
time-units — before the dead flag is consulted and the step fails, so the step
does not "fail immediately with no further polling attempts or waiting" as the
claim states. -/
theorem Benchi.discovery_polls_despite_dead_pool :
    Benchi.composeUpWaitDiscovery (some 0) (fun _ => [])
      = (30, Benchi.UpWaitStage.failedToStart) ∧ (30 : ℕ) ≠ 0 := by
  constructor
  · rfl
  · decide

/-- C6 amended: the discovery polling loop is not short-circuited by the dead
flag — the number of polling attempts performed is the same whatever the flag
— and the flag is consulted exactly once, after the loop: if the pool was
marked dead by then, the step fails with the "failed to start" error and never
reaches the per-container health waiting. -/
theorem Benchi.discovery_dead_flag_checked_after_loop (deadAt : Option ℕ)
    (ps : ℕ → List String) :
    (Benchi.composeUpWaitDiscovery deadAt ps).1 = (Benchi.discover ps).1 ∧
    (∀ t, deadAt = some t → t ≤ (Benchi.discover ps).1 →
      (Benchi.composeUpWaitDiscovery deadAt ps).2 = Benchi.UpWaitStage.failedToStart) := by
  constructor
  · unfold Benchi.composeUpWaitDiscovery
    cases deadAt with
    | none => simp
    | some t =>
      by_cases h : t ≤ (Benchi.discover ps).1 <;> simp [h]
  · intro t ht hle
    subst ht
    unfold Benchi.composeUpWaitDiscovery
    simp [hle]

/-- C6 witness: concrete instance of the amended theorem at the scenario where
the pool dies at time 0 and no container ever appears. -/
theorem Benchi.discovery_dead_flag_checked_after_loop_witness :
    (Benchi.composeUpWaitDiscovery (some 0) (fun _ => [])).1
        = (Benchi.discover (fun _ => [])).1 ∧
    (∀ t, (some 0 : Option ℕ) = some t → t ≤ (Benchi.discover (fun _ => [])).1 →
      (Benchi.composeUpWaitDiscovery (some 0) (fun _ => [])).2
        = Benchi.UpWaitStage.failedToStart) :=
  Benchi.discovery_dead_flag_checked_after_loop (some 0) (fun _ => [])

namespace Benchi

/-- A scenario (`config.TestConfig`).  Modelled from the spec: the `config`
package is not under src/.  Per the spec's data model, the scenario's
infrastructure and metrics overrides are ordered lists; its tool overrides
(`t.Tools`) are a Go map from tool name to service config, embedded as an
association list whose list order stands for one possible — unspecified — map
iteration order.  Service configs and metrics collectors are identified by
opaque strings. -/
structure TestCfg where
  name : String
  infrastructure : List String
  metrics : List String
  tools : List (String × String)
deriving DecidableEq, Repr

/-- The global configuration (`config.Config`).  Modelled from the spec, like
`TestCfg`: ordered infrastructure and metrics lists, and the global tool map
(`cfg.Tools`) embedded as an association list in one possible map iteration
order. -/
structure GlobalCfg where
  infrastructure : List String
  metrics : List String
  tools : List (String × String)
deriving DecidableEq, Repr

/-- Go map lookup `cfg.Tools[k]` on the association-list embedding. -/
def lookupTool (tools : List (String × String)) (k : String) : Option String :=
  (tools.find? (fun kv => kv.1 == k)).map (·.2)

/-- The tool-name list of `buildTestRuns` (runner.go lines 84-89):
`slices.Collect(maps.Keys(cfg.Tools))` — the global names in map-iteration
order — followed by each scenario tool name not present in the global map, in
the scenario map's iteration order. -/
def buildToolNames (g s : List (String × String)) : List String :=
  g.map Prod.fst ++ (s.map Prod.fst).filter (fun k => (lookupTool g k).isNone)

/-- The data of one built `testRun` (runner.go lines 106-118) that the claims
are about: merged infrastructure, merged tool configs, merged metrics, the
scenario name, the tool name, and the output path
`{outRoot}/{timestamp}_{scenario}_{tool}`. -/
structure TestRunM where
  infrastructure : List String
  tools : List String
  metrics : List String
  name : String
  tool : String
  outPath : String
deriving DecidableEq, Repr

/-- The runs built for one scenario (the body of the outer loop of
`buildTestRuns`, runner.go lines 70-120): merged infrastructure
`cfg.Infrastructure ++ t.Infrastructure`, merged metrics
`cfg.Metrics ++ t.Metrics`, and one run per tool name, with the merged tool
list [global config if present] ++ [scenario config if present]. -/
def mkRunsFor (now outRoot : String) (cfg : GlobalCfg) (t : TestCfg) : List TestRunM :=
  (buildToolNames cfg.tools t.tools).map fun tool =>
    { infrastructure := cfg.infrastructure ++ t.infrastructure
      tools := (match lookupTool cfg.tools tool with
                | some c => [c]
                | none => []) ++
               (match lookupTool t.tools tool with
                | some c => [c]
                | none => [])
      metrics := cfg.metrics ++ t.metrics
      name := t.name
      tool := tool
      outPath := outRoot ++ "/" ++ now ++ "_" ++ t.name ++ "_" ++ tool }

/-- `buildTestRuns` (runner.go lines 66-123): one batch of runs per scenario,
concatenated in scenario order. -/
def buildTestRuns (now outRoot : String) (cfg : GlobalCfg) :
    List TestCfg → List TestRunM
  | [] => []
  | t :: rest => mkRunsFor now outRoot cfg t ++ buildTestRuns now outRoot cfg rest

theorem lookupTool_eq_none_iff (g : List (String × String)) (k : String) :
    (lookupTool g k).isNone = true ↔ k ∉ g.map Prod.fst := by
  induction g with
  | nil => simp [lookupTool]
  | cons kv rest ih =>
    by_cases hkv : kv.1 = k
    · simp [lookupTool, List.find?_cons, hkv]
    · simp only [lookupTool, List.find?_cons] at ih ⊢
      have hbeq : (kv.1 == k) = false := beq_false_of_ne hkv
      simp only [hbeq, cond_false, List.map_cons, List.mem_cons]
      rw [ih]
      constructor
      · intro h hk
        rcases hk with hk | hk
        · exact hkv hk.symm
        · exact h hk
      · intro h hk
        exact h (Or.inr hk)

end Benchi

/-- C7: every built TestRun's infrastructure list is the global infrastructure
list concatenated with its scenario's infrastructure list — preserving both
internal orders, no deduplication — and likewise its metrics list is the
global metrics followed by the scenario's metrics. -/
theorem Benchi.testRun_merge_order (now outRoot : String) (cfg : Benchi.GlobalCfg)
    (tests : List Benchi.TestCfg) (r : Benchi.TestRunM)
    (h : r ∈ Benchi.buildTestRuns now outRoot cfg tests) :
    ∃ t ∈ tests, r.name = t.name ∧
      r.infrastructure = cfg.infrastructure ++ t.infrastructure ∧
      r.metrics = cfg.metrics ++ t.metrics := by
  induction tests with
  | nil => cases h
  | cons t rest ih =>
    rcases List.mem_append.mp h with hmem | hmem
    · refine ⟨t, List.mem_cons_self t rest, ?_⟩
      rcases List.mem_map.mp hmem with ⟨tool, _, hr⟩
      subst hr
      exact ⟨rfl, rfl, rfl⟩
    · rcases ih hmem with ⟨t', ht', hr⟩
      exact ⟨t', List.mem_cons_of_mem t ht', hr⟩

/-- C7 witness: concrete instance with one global and one scenario
infrastructure entry and one tool. -/
theorem Benchi.testRun_merge_order_witness :
    ∃ t ∈ [(⟨"s", ["si"], ["sm"], []⟩ : Benchi.TestCfg)],
      (⟨["gi", "si"], ["ca"], ["gm", "sm"], "s", "a", "out/ts_s_a"⟩ : Benchi.TestRunM).name
          = t.name ∧
      (⟨["gi", "si"], ["ca"], ["gm", "sm"], "s", "a", "out/ts_s_a"⟩ : Benchi.TestRunM).infrastructure
          = (⟨["gi"], ["gm"], [("a", "ca")]⟩ : Benchi.GlobalCfg).infrastructure ++ t.infrastructure ∧
      (⟨["gi", "si"], ["ca"], ["gm", "sm"], "s", "a", "out/ts_s_a"⟩ : Benchi.TestRunM).metrics
          = (⟨["gi"], ["gm"], [("a", "ca")]⟩ : Benchi.GlobalCfg).metrics ++ t.metrics :=
  Benchi.testRun_merge_order "ts" "out" ⟨["gi"], ["gm"], [("a", "ca")]⟩
    [⟨"s", ["si"], ["sm"], []⟩] ⟨["gi", "si"], ["ca"], ["gm", "sm"], "s", "a", "out/ts_s_a"⟩
    (by decide)

namespace Benchi

theorem buildToolNames_perm (g1 g2 s : List (String × String)) (hp : g1.Perm g2)
    (hl : ∀ k, lookupTool g1 k = lookupTool g2 k) :
    (buildToolNames g1 s).Perm (buildToolNames g2 s) := by
  unfold buildToolNames
  have hfilter : (s.map Prod.fst).filter (fun k => (lookupTool g1 k).isNone)
      = (s.map Prod.fst).filter (fun k => (lookupTool g2 k).isNone) := by
    apply List.filter_congr
    intro k _
    rw [hl k]
  rw [hfilter]
  exact (hp.map Prod.fst).append (List.Perm.refl _)

theorem mkRunsFor_perm (now outRoot : String) (infra metrics : List String)
    (g1 g2 : List (String × String)) (t : TestCfg) (hp : g1.Perm g2)
    (hl : ∀ k, lookupTool g1 k = lookupTool g2 k) :
    (mkRunsFor now outRoot ⟨infra, metrics, g1⟩ t).Perm
      (mkRunsFor now outRoot ⟨infra, metrics, g2⟩ t) := by
  unfold mkRunsFor
  have hperm := (buildToolNames_perm g1 g2 t.tools hp hl).map
    (fun tool => ({ infrastructure := infra ++ t.infrastructure
                    tools := (match lookupTool g1 tool with
                              | some c => [c]
                              | none => []) ++
                             (match lookupTool t.tools tool with
                              | some c => [c]
                              | none => [])
                    metrics := metrics ++ t.metrics
                    name := t.name
                    tool := tool
                    outPath := outRoot ++ "/" ++ now ++ "_" ++ t.name ++ "_" ++ tool } : TestRunM))
  refine hperm.trans ?_
  apply List.Perm.of_eq
  apply List.map_congr_left
  intro tool _
  rw [hl tool]

end Benchi

/-- C8 counterexample: the global tool set is a Go map, whose iteration order
(`maps.Keys(cfg.Tools)`) is unspecified; embedding the same two-tool map under
two of its possible iteration orders (a permutation, with identical lookups)
yields differently ordered run sequences, so two invocations on the same input
need not produce identically ordered runs. -/
theorem Benchi.buildTestRuns_order_dependent :
    ([("a", "ca"), ("b", "cb")] : List (String × String)).Perm
      [("b", "cb"), ("a", "ca")] ∧
    Benchi.buildTestRuns "ts" "out" ⟨[], [], [("a", "ca"), ("b", "cb")]⟩
        [⟨"s", [], [], []⟩]
      ≠ Benchi.buildTestRuns "ts" "out" ⟨[], [], [("b", "cb"), ("a", "ca")]⟩
        [⟨"s", [], [], []⟩] := by
  constructor
  · exact List.Perm.swap ("b", "cb") ("a", "ca") []
  · decide

/-- C8 amended: each scenario yields one TestRun per tool name in the union of
the globally declared names and the scenario's override names — but the order
within the global (and scenario-only) block is the unspecified Go map
iteration order, so run building is deterministic only up to permutation: two
iteration orders of the same global tool map (a permutation with identical
lookups) produce run sequences that are permutations of each other; the set of
tool names is exactly the union, and with duplicate-free key sets each union
name yields exactly one run per scenario. -/
theorem Benchi.buildTestRuns_deterministic_up_to_perm (now outRoot : String)
    (infra metrics : List String) (g1 g2 s : List (String × String))
    (tests : List Benchi.TestCfg) (hp : g1.Perm g2)
    (hl : ∀ k, Benchi.lookupTool g1 k = Benchi.lookupTool g2 k) :
    (Benchi.buildTestRuns now outRoot ⟨infra, metrics, g1⟩ tests).Perm
      (Benchi.buildTestRuns now outRoot ⟨infra, metrics, g2⟩ tests) ∧
    (∀ k, k ∈ Benchi.buildToolNames g1 s ↔
      (k ∈ g1.map Prod.fst ∨ k ∈ s.map Prod.fst)) ∧
    ((g1.map Prod.fst).Nodup → (s.map Prod.fst).Nodup →
      (Benchi.buildToolNames g1 s).Nodup) := by
  refine ⟨?_, ?_, ?_⟩
  · induction tests with
    | nil => exact List.Perm.refl _
    | cons t rest ih =>
      exact (Benchi.mkRunsFor_perm now outRoot infra metrics g1 g2 t hp hl).append ih
  · intro k
    unfold Benchi.buildToolNames
    rw [List.mem_append, List.mem_filter]
    constructor
    · rintro (h | ⟨hs, _⟩)
      · exact Or.inl h
      · exact Or.inr hs
    · rintro (h | h)
      · exact Or.inl h
      · by_cases hg : k ∈ g1.map Prod.fst
        · exact Or.inl hg
        · exact Or.inr ⟨h, (Benchi.lookupTool_eq_none_iff g1 k).mpr hg⟩
  · intro hg hs
    unfold Benchi.buildToolNames
    rw [List.nodup_append]
    refine ⟨hg, hs.filter _, ?_⟩
    intro k hk hk'
    have := (List.mem_filter.mp hk').2
    exact (Benchi.lookupTool_eq_none_iff g1 k).mp this hk

/-- C8 witness: concrete instance of the amended theorem for a two-tool global
map under its two iteration orders. -/
theorem Benchi.buildTestRuns_deterministic_up_to_perm_witness :
    (Benchi.buildTestRuns "ts" "out" ⟨[], [], [("a", "ca"), ("b", "cb")]⟩
        [⟨"s", [], [], []⟩]).Perm
      (Benchi.buildTestRuns "ts" "out" ⟨[], [], [("b", "cb"), ("a", "ca")]⟩
        [⟨"s", [], [], []⟩]) ∧
    (∀ k, k ∈ Benchi.buildToolNames [("a", "ca"), ("b", "cb")] [("c", "cc")] ↔
      (k ∈ ([("a", "ca"), ("b", "cb")] : List (String × String)).map Prod.fst ∨
       k ∈ ([("c", "cc")] : List (String × String)).map Prod.fst)) ∧
    ((([("a", "ca"), ("b", "cb")] : List (String × String)).map Prod.fst).Nodup →
      (([("c", "cc")] : List (String × String)).map Prod.fst).Nodup →
      (Benchi.buildToolNames [("a", "ca"), ("b", "cb")] [("c", "cc")]).Nodup) := by
  refine Benchi.buildTestRuns_deterministic_up_to_perm "ts" "out" [] []
    [("a", "ca"), ("b", "cb")] [("b", "cb"), ("a", "ca")] [("c", "cc")]
    [⟨"s", [], [], []⟩] (List.Perm.swap ("b", "cb") ("a", "ca") []) ?_
  intro k
  unfold Benchi.lookupTool
  by_cases ha : ("a" : String) = k
  · subst ha
    rfl
  · by_cases hb : ("b" : String) = k
    · subst hb
      rfl
    · have h1 : (("a" : String) == k) = false := beq_false_of_ne ha
      have h2 : (("b" : String) == k) = false := beq_false_of_ne hb
      simp [List.find?_cons, h1, h2]

namespace Benchi

/-- A raw query entry (`map[string]any` with string values) as it appears under
the `queries` key of a collector settings bag: name, query expression, display
unit, and an optional raw interval string (decoded into a duration by the
generic collector). -/
structure QueryMap where
  name : String
  query : String
  unit : String
  interval : Option String
deriving DecidableEq, Repr

/-- A value in a collector settings bag (`map[string]any`), restricted to the
value shapes occurring in this configuration: a string, a list of strings
(e.g. topic names), or a list of query maps. -/
inductive SVal where
  | str (s : String)
  | strList (l : List String)
  | queryList (qs : List QueryMap)
deriving DecidableEq, Repr

/-- Go map lookup `settings[k]` on the association-list embedding of the
settings bag (keys are assumed distinct, as in a Go map). -/
def getKey (s : List (String × SVal)) (k : String) : Option SVal :=
  (s.find? (fun kv => kv.1 == k)).map (·.2)

/-- Go `delete(settings, k)`. -/
def eraseKey (s : List (String × SVal)) (k : String) : List (String × SVal) :=
  s.filter (fun kv => kv.1 != k)

/-- Go map assignment `settings[k] = v`, embedded up to lookup-observational
equivalence (Go maps are unordered, so the position of the pair is
irrelevant). -/
def setKey (s : List (String × SVal)) (k : String) (v : SVal) :
    List (String × SVal) :=
  eraseKey s k ++ [(k, v)]

theorem getKey_eraseKey_self (s : List (String × SVal)) (k : String) :
    getKey (eraseKey s k) k = none := by
  induction s with
  | nil => rfl
  | cons kv rest ih =>
    by_cases hk : kv.1 = k
    · simp only [eraseKey, List.filter, hk, beq_self_eq_true, bne, Bool.not_true] at ih ⊢
      exact ih
    · have hbeq : (kv.1 == k) = false := beq_false_of_ne hk
      simp only [eraseKey, List.filter, hbeq, bne] at ih ⊢
      simp only [getKey, List.find?_cons, hbeq, cond_false, Bool.not_false] at ih ⊢
      exact ih

theorem getKey_eraseKey_ne (s : List (String × SVal)) (k k' : String)
    (h : k' ≠ k) :
    getKey (eraseKey s k) k' = getKey s k' := by
  induction s with
  | nil => rfl
  | cons kv rest ih =>
    by_cases hk : kv.1 = k
    · have hbeq : (kv.1 == k) = true := by simp [hk]
      have hne : (kv.1 == k') = false := beq_false_of_ne (by rw [hk]; exact fun he => h he.symm)
      simp only [eraseKey, List.filter, hbeq, bne, Bool.not_true] at ih ⊢
      simpa [getKey, List.find?_cons, hne] using ih
    · have hbeq : (kv.1 == k) = false := beq_false_of_ne hk
      simp only [eraseKey, List.filter, hbeq, bne, Bool.not_false] at ih ⊢
      by_cases hk' : kv.1 = k'
      · simp [getKey, List.find?_cons, hk']
      · have hne : (kv.1 == k') = false := beq_false_of_ne hk'
        simpa [getKey, List.find?_cons, hne] using ih

theorem getKey_setKey_self (s : List (String × SVal)) (k : String) (v : SVal) :
    getKey (setKey s k v) k = some v := by
  unfold setKey getKey
  rw [List.find?_append]
  have h1 : (eraseKey s k).find? (fun kv => kv.1 == k) = none := by
    have h2 := getKey_eraseKey_self s k
    unfold getKey at h2
    cases hf : (eraseKey s k).find? (fun kv => kv.1 == k) with
    | none => rfl
    | some kv => rw [hf] at h2; cases h2
  rw [h1]
  simp [List.find?_cons]

theorem getKey_setKey_ne (s : List (String × SVal)) (k k' : String) (v : SVal)
    (h : k' ≠ k) :
    getKey (setKey s k v) k' = getKey s k' := by
  have hstep := getKey_eraseKey_ne s k k' h
  unfold setKey getKey
  rw [List.find?_append]
  have hne : ((k, v).1 == k') = false := beq_false_of_ne (fun he => h he.symm)
  have h2 : List.find? (fun kv => kv.1 == k') [(k, v)] = none := by
    simp [List.find?_cons, hne]
  rw [h2]
  unfold getKey at hstep
  cases hf : (eraseKey s k).find? (fun kv => kv.1 == k') with
  | none =>
    rw [hf] at hstep
    simpa using hstep
  | some kv =>
    rw [hf] at hstep
    simpa using hstep

end Benchi

namespace Benchi

/-- Splits a character list into its leading decimal-digit run and the rest. -/
def splitDigits : List Char → List Char × List Char
  | [] => ([], [])
  | c :: cs =>
    if c.isDigit then
      let r := splitDigits cs
      (c :: r.1, r.2)
    else ([], c :: cs)

/-- Splits a character list into its leading non-digit run and the rest. -/
def splitNonDigits : List Char → List Char × List Char
  | [] => ([], [])
  | c :: cs =>
    if c.isDigit then ([], c :: cs)
    else
      let r := splitNonDigits cs
      (c :: r.1, r.2)

/-- Value of a decimal-digit run. -/
def digitsToNat (ds : List Char) : ℕ :=
  ds.foldl (fun acc c => acc * 10 + (c.toNat - 48)) 0

/-- Nanoseconds per duration-unit suffix (the ASCII entries of Go
`time.ParseDuration`'s unit table). -/
def unitMultiplier : List Char → Option ℕ
  | ['n', 's'] => some 1
  | ['u', 's'] => some 1000
  | ['m', 's'] => some 1000000
  | ['s'] => some 1000000000
  | ['m'] => some 60000000000
  | ['h'] => some 3600000000000
  | _ => none

/-- Parses the (integer, unit) segments of a duration string, accumulating
nanoseconds; fuelled recursion (each segment consumes at least one
character). -/
def parseSegments (ps : ℕ) (cs : List Char) (acc : ℕ) : Option ℕ :=
  match ps with
  | 0 => none
  | fuel + 1 =>
    match cs with
    | [] => some acc
    | _ =>
      let d := splitDigits cs
      if d.1.isEmpty then none
      else
        let u := splitNonDigits d.2
        if u.1.isEmpty then none
        else
          match unitMultiplier u.1 with
          | none => none
          | some m => parseSegments fuel u.2 (acc + digitsToNat d.1 * m)

/-- Modelled from the spec: Go standard-library `time.ParseDuration`, applied
by mapstructure's `StringToTimeDurationHookFunc` when decoding collector
settings; the Go stdlib is not part of this repository.  Restricted to the
unsigned, fraction-free duration strings relevant here: `"0"`, or one or more
(decimal integer, unit) segments such as `"1s"`, `"500ms"`, `"1m30s"`; the
empty string and unknown units fail.  Result in nanoseconds. -/
def goParseDuration (s : String) : Option ℕ :=
  if s = "0" then some 0
  else if s.data.isEmpty then none
  else parseSegments (s.data.length + 1) s.data 0

/-- Modelled from the spec: success of Go standard-library `net/url.Parse`
(the Go stdlib is not part of this repository), restricted to what the claims
need — `Parse` accepts the empty string (it returns an empty URL value and no
error) and ordinary URLs; it rejects strings containing ASCII control
characters and strings that start with `"://"` (missing protocol scheme). -/
def goURLParseOk (s : String) : Bool :=
  s.data.all (fun c => 0x20 ≤ c.toNat && c.toNat != 0x7f) &&
  !(s.data.take 3 == [':', '/', '/'])

/-- A decoded query configuration (`prometheus.QueryConfig`): name, PromQL
query string, resolution interval (nanoseconds), display unit. -/
structure QueryConfig where
  name : String
  queryString : String
  interval : ℕ
  unit : String
deriving DecidableEq, Repr

/-- The decoded generic collector configuration (`prometheus.Config`):
endpoint URL, scrape interval (nanoseconds), query configurations. -/
structure Config where
  url : String
  scrapeInterval : ℕ
  queries : List QueryConfig
deriving DecidableEq, Repr

/-- `prometheus.defaultConfig`: scrape interval defaults to one second. -/
def defaultConfig : Config :=
  { url := "", scrapeInterval := 1000000000, queries := [] }

/-- The keys of `prometheus.Config` under mapstructure's `yaml` tags. -/
def recognizedKeys : List String := ["url", "scrape-interval", "queries"]

/-- Decoding of one entry of the `queries` list into a `QueryConfig`: string
fields are copied; the `interval` string, when present, goes through the
duration hook and its parse failure fails the decode; when absent the field
keeps its zero value. -/
def decodeQuery (q : QueryMap) : Option QueryConfig :=
  match q.interval with
  | none => some { name := q.name, queryString := q.query, interval := 0, unit := q.unit }
  | some si =>
    (goParseDuration si).map fun d =>
      { name := q.name, queryString := q.query, interval := d, unit := q.unit }

/-- Decoding of the `url` field: absent means the field keeps the default. -/
def decodeURL (s : List (String × SVal)) : Option String :=
  match getKey s "url" with
  | none => some defaultConfig.url
  | some (SVal.str u) => some u
  | some _ => none

/-- Decoding of the `scrape-interval` field: absent keeps the default (one
second); a string goes through the duration hook. -/
def decodeScrapeInterval (s : List (String × SVal)) : Option ℕ :=
  match getKey s "scrape-interval" with
  | none => some defaultConfig.scrapeInterval
  | some (SVal.str si) => goParseDuration si
  | some _ => none

/-- Decoding of the `queries` field. -/
def decodeQueries (s : List (String × SVal)) : Option (List QueryConfig) :=
  match getKey s "queries" with
  | none => some defaultConfig.queries
  | some (SVal.queryList qs) => qs.mapM decodeQuery
  | some _ => none

/-- `prometheus.parseConfig`: decodes the settings bag with mapstructure
(`ErrorUnused: true`, so any key outside the recognized ones fails; the
duration hook decodes interval strings), starting from `defaultConfig`, then
validates the URL (`cfg.parseURL`).  The `validURL` parameter stands for
success of Go's `net/url.Parse`. -/
def parseConfig (validURL : String → Bool)
    (settings : List (String × SVal)) : Option Config :=
  if settings.all (fun kv => decide (kv.1 ∈ recognizedKeys)) then
    match decodeURL settings, decodeScrapeInterval settings, decodeQueries settings with
    | some u, some si, some qs =>
      if validURL u then some { url := u, scrapeInterval := si, queries := qs }
      else none
    | _, _, _ => none
  else none

end Benchi

/-- C9 counterexample: (a) a bag with only recognized keys and a valid url
fails anyway when the scrape-interval string is not a parsable duration, and
(b) a bag with no url key at all succeeds — the url field keeps its empty
default, which Go's `url.Parse` accepts — so the url is not required.  Both
contradict "fails exactly when the bag contains a key other than url,
scrape-interval, and queries, or when the url value does not parse (url being
required)". -/
theorem Benchi.parseConfig_counterexample :
    Benchi.parseConfig Benchi.goURLParseOk
        [("url", Benchi.SVal.str "http://localhost:9090"),
         ("scrape-interval", Benchi.SVal.str "abc")] = none ∧
    Benchi.parseConfig Benchi.goURLParseOk
        [("scrape-interval", Benchi.SVal.str "2s")]
      = some { url := "", scrapeInterval := 2000000000, queries := [] } :=
  ⟨rfl, rfl⟩

namespace Benchi

theorem parseConfig_scrapeInterval_eq (validURL : String → Bool)
    (settings : List (String × SVal)) (cfg : Config)
    (h : parseConfig validURL settings = some cfg) :
    decodeScrapeInterval settings = some cfg.scrapeInterval := by
  unfold parseConfig at h
  split at h
  · split at h
    · rename_i u si qs hu hsi hq
      split at h
      · rw [Option.some.injEq] at h
        rw [← h]
        exact hsi
      · cases h
    · cases h
  · cases h

end Benchi

/-- C9 amended: `Configure` succeeds exactly when every key of the bag is one
of url, scrape-interval, queries, every recognized value decodes (in
particular every duration string parses), and the url value — the empty
string when the key is omitted, url is not required — parses as a valid URL;
and the scrape interval defaults to one second (10^9 ns) when omitted. -/
theorem Benchi.parseConfig_strict_characterization (validURL : String → Bool)
    (settings : List (String × Benchi.SVal)) :
    ((Benchi.parseConfig validURL settings).isSome = true ↔
      ((∀ kv ∈ settings, kv.1 ∈ Benchi.recognizedKeys) ∧
       (Benchi.decodeURL settings).isSome = true ∧
       (Benchi.decodeScrapeInterval settings).isSome = true ∧
       (Benchi.decodeQueries settings).isSome = true ∧
       (∀ u, Benchi.decodeURL settings = some u → validURL u = true))) ∧
    (Benchi.getKey settings "scrape-interval" = none →
      ∀ cfg, Benchi.parseConfig validURL settings = some cfg →
        cfg.scrapeInterval = 1000000000) := by
  constructor
  · unfold Benchi.parseConfig
    by_cases hall : settings.all (fun kv => decide (kv.1 ∈ Benchi.recognizedKeys)) = true
    · rw [if_pos hall]
      have hall' : ∀ kv ∈ settings, kv.1 ∈ Benchi.recognizedKeys := by
        intro kv hkv
        exact of_decide_eq_true (List.all_eq_true.mp hall kv hkv)
      cases hu : Benchi.decodeURL settings with
      | none => simp [hu]
      | some u =>
        cases hsi : Benchi.decodeScrapeInterval settings with
        | none => simp [hsi]
        | some si =>
          cases hq : Benchi.decodeQueries settings with
          | none => simp [hq]
          | some qs =>
            by_cases hv : validURL u = true
            · constructor
              · intro _
                refine ⟨hall', rfl, rfl, rfl, ?_⟩
                intro u' hu'
                rw [Option.some.injEq] at hu'
                rw [← hu']
                exact hv
              · intro _
                simp [hv]
            · constructor
              · intro hls
                exfalso
                simp [hv] at hls
              · rintro ⟨-, -, -, -, hval⟩
                exact absurd (hval u rfl) hv
    · rw [if_neg hall]
      simp only [Option.isSome_none, Bool.false_eq_true, false_iff]
      rintro ⟨hc, -⟩
      apply hall
      rw [List.all_eq_true]
      intro kv hkv
      exact decide_eq_true (hc kv hkv)
  · intro hnone cfg hcfg
    have hsi : Benchi.decodeScrapeInterval settings = some 1000000000 := by
      unfold Benchi.decodeScrapeInterval
      rw [hnone]
      rfl
    have h2 := Benchi.parseConfig_scrapeInterval_eq validURL settings cfg hcfg
    rw [hsi, Option.some.injEq] at h2
    exact h2.symm

/-- C9 witness: concrete instance of the amended characterization at a bag
holding a valid url only. -/
theorem Benchi.parseConfig_strict_characterization_witness :
    ((Benchi.parseConfig Benchi.goURLParseOk
        [("url", Benchi.SVal.str "http://localhost:9090")]).isSome = true ↔
      ((∀ kv ∈ [("url", Benchi.SVal.str "http://localhost:9090")],
          kv.1 ∈ Benchi.recognizedKeys) ∧
       (Benchi.decodeURL [("url", Benchi.SVal.str "http://localhost:9090")]).isSome = true ∧
       (Benchi.decodeScrapeInterval
          [("url", Benchi.SVal.str "http://localhost:9090")]).isSome = true ∧
       (Benchi.decodeQueries
          [("url", Benchi.SVal.str "http://localhost:9090")]).isSome = true ∧
       (∀ u, Benchi.decodeURL [("url", Benchi.SVal.str "http://localhost:9090")] = some u →
          Benchi.goURLParseOk u = true))) ∧
    (Benchi.getKey [("url", Benchi.SVal.str "http://localhost:9090")] "scrape-interval"
        = none →
      ∀ cfg, Benchi.parseConfig Benchi.goURLParseOk
          [("url", Benchi.SVal.str "http://localhost:9090")] = some cfg →
        cfg.scrapeInterval = 1000000000) :=
  Benchi.parseConfig_strict_characterization Benchi.goURLParseOk
    [("url", Benchi.SVal.str "http://localhost:9090")]

namespace Benchi

/-- Modelled from the spec: the kafka collector's own settings parsing (its
`parseConfig`, not under src/), which per §4.6 reads the specialization-only
`topics` key — a list of topic names — from the settings bag. An absent key
yields no topics. -/
def kafkaParseTopics (settings : List (String × SVal)) : Option (List String) :=
  match getKey settings "topics" with
  | none => some []
  | some (SVal.strList ts) => some ts
  | some _ => none

/-- The three queries the kafka collector synthesizes per topic
(`Collector.Configure` in the kafka collector source): messages-in rate,
megabytes-in rate, megabytes-out rate, each named
`{metric-name}[{topic}]` with unit and a 1s interval, the query string built
with the topic interpolated via `%q`. -/
def kafkaSynthQueries (topic : String) : List QueryMap :=
  [ { name := "msg-rate-in-per-second[" ++ topic ++ "]"
      query := "rate(kafka_server_messages_in_per_sec_per_topic_total\x7btopic=\"" ++
        topic ++ "\"\x7d[2s])"
      unit := "msg/s"
      interval := some "1s" }
  , { name := "msg-megabytes-in-per-second[" ++ topic ++ "]"
      query := "rate(kafka_server_total_bytes_in_per_sec_per_topic\x7btopic=\"" ++
        topic ++ "\"\x7d[2s])/1048576"
      unit := "MB/s"
      interval := some "1s" }
  , { name := "msg-megabytes-out-per-second[" ++ topic ++ "]"
      query := "rate(kafka_server_total_bytes_out_per_sec_per_topic\x7btopic=\"" ++
        topic ++ "\"\x7d[2s])/1048576"
      unit := "MB/s"
      interval := some "1s" } ]

/-- The user-supplied queries the kafka `Configure` appends: it reads
`settings["queries"]` after deleting `topics` and keeps it only when it is
non-nil and of the asserted dynamic type `[]map[string]any`. -/
def userQueries (settings : List (String × SVal)) : List QueryMap :=
  match getKey (eraseKey settings "topics") "queries" with
  | some (SVal.queryList qs) => qs
  | _ => []

/-- The settings bag the kafka `Configure` delegates to the embedded
prometheus collector, given the parsed topics: `topics` deleted, and
`queries` set to the synthesized per-topic queries followed by the
user-supplied queries. -/
def kafkaDelegated (topics : List String) (settings : List (String × SVal)) :
    List (String × SVal) :=
  setKey (eraseKey settings "topics") "queries"
    (SVal.queryList (topics.flatMap kafkaSynthQueries ++ userQueries settings))

/-- The kafka `Collector.Configure`: parse the topics, build the delegated
settings, and call the embedded prometheus collector's `Configure`
(`parseConfig`).  Returns the delegated bag together with the resulting
generic configuration. -/
def kafkaConfigure (validURL : String → Bool)
    (settings : List (String × SVal)) :
    Option (List (String × SVal) × Config) :=
  match kafkaParseTopics settings with
  | none => none
  | some topics =>
    let s2 := kafkaDelegated topics settings
    (parseConfig validURL s2).map fun cfg => (s2, cfg)

theorem kafkaSynth_length (topics : List String) :
    (topics.flatMap kafkaSynthQueries).length = 3 * topics.length := by
  induction topics with
  | nil => rfl
  | cons t rest ih =>
    simp only [List.flatMap_cons, List.length_append, List.length_cons, ih]
    simp [kafkaSynthQueries]
    ring

theorem kafkaSynth_names (topics : List String) :
    (topics.flatMap kafkaSynthQueries).map (·.name)
      = topics.flatMap (fun t =>
          ["msg-rate-in-per-second[" ++ t ++ "]",
           "msg-megabytes-in-per-second[" ++ t ++ "]",
           "msg-megabytes-out-per-second[" ++ t ++ "]"]) := by
  induction topics with
  | nil => rfl
  | cons t rest ih =>
    simp only [List.flatMap_cons, List.map_append, ih]
    rfl

end Benchi

/-- C10: for every topics list and settings bag accepted by the kafka
collector's `Configure`, the settings delegated to the embedded generic
collector contain no `topics` key, and their `queries` value is exactly the
three synthesized queries per topic — named
`{metric-name}[{topic}]`, grouped per topic in topic order — followed by all
user-supplied queries in their original order with no deduplication; in total
`3 × |topics| + |user queries|` queries (so 6 for two topics and no user
queries). -/
theorem Benchi.kafka_query_injection (validURL : String → Bool)
    (settings : List (String × Benchi.SVal)) (topics : List String)
    (hpt : Benchi.kafkaParseTopics settings = some topics) :
    Benchi.getKey (Benchi.kafkaDelegated topics settings) "topics" = none ∧
    Benchi.getKey (Benchi.kafkaDelegated topics settings) "queries"
      = some (Benchi.SVal.queryList
          (topics.flatMap Benchi.kafkaSynthQueries ++ Benchi.userQueries settings)) ∧
    (topics.flatMap Benchi.kafkaSynthQueries ++ Benchi.userQueries settings).length
      = 3 * topics.length + (Benchi.userQueries settings).length ∧
    (topics.flatMap Benchi.kafkaSynthQueries).map (·.name)
      = topics.flatMap (fun t =>
          ["msg-rate-in-per-second[" ++ t ++ "]",
           "msg-megabytes-in-per-second[" ++ t ++ "]",
           "msg-megabytes-out-per-second[" ++ t ++ "]"]) ∧
    Benchi.kafkaConfigure validURL settings
      = (Benchi.parseConfig validURL (Benchi.kafkaDelegated topics settings)).map
          (fun cfg => (Benchi.kafkaDelegated topics settings, cfg)) := by
  refine ⟨?_, ?_, ?_, Benchi.kafkaSynth_names topics, ?_⟩
  · unfold Benchi.kafkaDelegated
    rw [Benchi.getKey_setKey_ne _ _ _ _ (by decide)]
    exact Benchi.getKey_eraseKey_self settings "topics"
  · unfold Benchi.kafkaDelegated
    exact Benchi.getKey_setKey_self _ _ _
  · rw [List.length_append, Benchi.kafkaSynth_length]
  · unfold Benchi.kafkaConfigure
    rw [hpt]

/-- C10 witness: concrete instance with topics `["a", "b"]`, a valid url and
no user-supplied queries — `3 × 2 + 0 = 6` queries result and the delegated
bag has no `topics` key. -/
theorem Benchi.kafka_query_injection_witness :
    Benchi.getKey (Benchi.kafkaDelegated ["a", "b"]
        [("url", Benchi.SVal.str "http://localhost:7071/metrics"),
         ("topics", Benchi.SVal.strList ["a", "b"])]) "topics" = none ∧
    Benchi.getKey (Benchi.kafkaDelegated ["a", "b"]
        [("url", Benchi.SVal.str "http://localhost:7071/metrics"),
         ("topics", Benchi.SVal.strList ["a", "b"])]) "queries"
      = some (Benchi.SVal.queryList
          ((["a", "b"] : List String).flatMap Benchi.kafkaSynthQueries ++
            Benchi.userQueries
              [("url", Benchi.SVal.str "http://localhost:7071/metrics"),
               ("topics", Benchi.SVal.strList ["a", "b"])])) ∧
    ((["a", "b"] : List String).flatMap Benchi.kafkaSynthQueries ++
        Benchi.userQueries
          [("url", Benchi.SVal.str "http://localhost:7071/metrics"),
           ("topics", Benchi.SVal.strList ["a", "b"])]).length
      = 3 * (["a", "b"] : List String).length +
        (Benchi.userQueries
          [("url", Benchi.SVal.str "http://localhost:7071/metrics"),
           ("topics", Benchi.SVal.strList ["a", "b"])]).length ∧
    ((["a", "b"] : List String).flatMap Benchi.kafkaSynthQueries).map (·.name)
      = (["a", "b"] : List String).flatMap (fun t =>
          ["msg-rate-in-per-second[" ++ t ++ "]",
           "msg-megabytes-in-per-second[" ++ t ++ "]",
           "msg-megabytes-out-per-second[" ++ t ++ "]"]) ∧
    Benchi.kafkaConfigure Benchi.goURLParseOk
        [("url", Benchi.SVal.str "http://localhost:7071/metrics"),
         ("topics", Benchi.SVal.strList ["a", "b"])]
      = (Benchi.parseConfig Benchi.goURLParseOk
          (Benchi.kafkaDelegated ["a", "b"]
            [("url", Benchi.SVal.str "http://localhost:7071/metrics"),
             ("topics", Benchi.SVal.strList ["a", "b"])])).map
          (fun cfg => (Benchi.kafkaDelegated ["a", "b"]
            [("url", Benchi.SVal.str "http://localhost:7071/metrics"),
             ("topics", Benchi.SVal.strList ["a", "b"])], cfg)) :=
  Benchi.kafka_query_injection Benchi.goURLParseOk
    [("url", Benchi.SVal.str "http://localhost:7071/metrics"),
     ("topics", Benchi.SVal.strList ["a", "b"])] ["a", "b"] rfl

/-- C3 witness: concrete instance of the output-guard theorem. -/
theorem Benchi.run_output_guard_witness :
    Benchi.runRun (ε := ℕ) true true []
      = ([Benchi.Phase.statCheck], [], some Benchi.RunError.alreadyExists) ∧
    (∀ i, Benchi.Phase.step i ∉ (Benchi.runRun (ε := ℕ) true true []).1) ∧
    (Benchi.runRun (ε := ℕ) true true []).2.1 = [] ∧
    (∃ rest, (Benchi.runRun (ε := ℕ) false true []).1
        = Benchi.Phase.statCheck :: Benchi.Phase.mkdirPhase :: rest) :=
  Benchi.run_output_guard true []
